import Mathlib

/-!
Verification of the replica-dispatch layer (`src/kv/transport.go`) of the
cockroach fragment: the grpc transport (dispatch session), its health
partitioner, its factory, and the test sender transport. Go slices of
`batchClient` are embedded as Lean lists; the mutable session state is
passed explicitly.
-/

/-- Replica identity as carried by a `roachpb.ReplicaDescriptor`:
node id, store id and replica id. A replica id of zero is the sentinel
for an unknown or invalid replica. -/
structure ReplicaDescriptor where
  nodeID : Nat
  storeID : Nat
  replicaID : Nat
deriving DecidableEq, Repr

/-- A `roachpb.BatchRequest`, reduced to the fields this layer reads:
the stamped target replica and an abstract payload standing for the
rest of the request. -/
structure BatchRequest where
  replica : ReplicaDescriptor
  payload : Nat
deriving DecidableEq, Repr

/-- A `roachpb.BatchResponse`, reduced to the fields this layer reads:
the embedded `Error` field (the terminal roachpb error carried inside a
reply) and an abstract payload. -/
structure BatchResponse where
  error : Option String
  payload : Nat
deriving DecidableEq, Repr

/-- The `batchClient` record of transport.go: remote address, the
per-candidate copy of the request with this replica stamped in, and the
health snapshot taken at construction time. The connection handle and
grpc client stub carry no dispatch-ordering state and are omitted. -/
structure BatchClient where
  remoteAddr : String
  args : BatchRequest
  healthy : Bool
deriving DecidableEq, Repr

/-- A `BatchCall` outcome delivered on the result channel: a response
and an RPC error, each optional exactly as the Go pointers are. -/
structure BatchCall where
  reply : Option BatchResponse
  err : Option String
deriving DecidableEq, Repr

/-! ## Health partitioner (`splitHealthy`, `byHealth`) -/

/-- The `byHealth.Less` comparator of transport.go:
`h[i].healthy && !h[j].healthy`. -/
def byHealthLess (x y : BatchClient) : Bool :=
  x.healthy && !y.healthy

/-- One insertion step of a stable insertion sort under `byHealthLess`:
the new element is placed before the first element not strictly less
than it, so elements comparing equal keep their original order. -/
def stableInsert (x : BatchClient) : List BatchClient → List BatchClient
  | [] => [x]
  | y :: ys => if byHealthLess y x then y :: stableInsert x ys else x :: y :: ys

/-- Modelled from the Go standard library contract of `sort.Stable`
(library code outside this repository): a stable sort of the slice under
the given comparator, realised here as stable insertion sort. -/
def sortStableByHealth : List BatchClient → List BatchClient
  | [] => []
  | x :: xs => stableInsert x (sortStableByHealth xs)

/-- The `splitHealthy` function of transport.go: stably sort the clients
under `byHealth` (healthy first), then count the healthy clients with a
loop over the resulting slice. The Go function reorders in place and
returns only the count; here the reordered list is returned alongside. -/
def splitHealthy (clients : List BatchClient) : List BatchClient × Nat :=
  let sorted := sortStableByHealth clients
  (sorted, sorted.countP (fun c => c.healthy))

/-! ## The grpc transport (dispatch session) -/

/-- The `grpcTransport` session state: the remaining ordered clients and
the full fixed client slice. The send options and rpc context carry no
ordering state and are supplied to `SendNext` as explicit capabilities. -/
structure GrpcTransport where
  orderedClients : List BatchClient
  allOrderedClients : List BatchClient
deriving DecidableEq, Repr

/-- `grpcTransport.IsExhausted`: true iff the remaining slice is empty. -/
def GrpcTransport.IsExhausted (gt : GrpcTransport) : Bool :=
  gt.orderedClients.isEmpty

/-- Conversion of a call result to the `BatchCall` pushed on the done
channel: `BatchCall\x7bReply: reply, Err: err\x7d` where exactly one of the
two is set. Modelled from the spec: the outbound local handler and RPC
interfaces return a reply or an error. -/
def mkBatchCall : Except String BatchResponse → BatchCall
  | .ok r => { reply := some r, err := none }
  | .error e => { reply := none, err := some e }

/-- The value returned by one `SendNext` call, together with the
outcomes it delivers: `sentBeforeReturn` are the `BatchCall` values
pushed on the done channel before `SendNext` returns (the local
short-circuit path), `pendingAsync` those a spawned goroutine pushes
after it returns (the network path). `wasLocal` records which path the
call took. -/
structure SendNextResult where
  gt : GrpcTransport
  addr : String
  wasLocal : Bool
  sentBeforeReturn : List BatchCall
  pendingAsync : List BatchCall
deriving DecidableEq, Repr

/-- `grpcTransport.SendNext`: pops the head of `orderedClients`, then
either invokes the local in-process server synchronously (when local
calls are enabled and one exists for the address) or launches the grpc
call on a goroutine; either path delivers one `BatchCall` and the
address is returned. Indexing `orderedClients[0]` on an exhausted
transport panics in Go, modelled as `none`. The verification loop of
the network path only logs and is omitted. -/
def GrpcTransport.SendNext
    (enableLocalCalls : Bool)
    (localServer : String → Option (BatchRequest → Except String BatchResponse))
    (netCall : BatchClient → Except String BatchResponse)
    (gt : GrpcTransport) : Option SendNextResult :=
  match gt.orderedClients with
  | [] => none
  | client :: rest =>
    let addr := client.remoteAddr
    let gt' : GrpcTransport := { gt with orderedClients := rest }
    match localServer addr with
    | some server =>
      if enableLocalCalls then
        some { gt := gt', addr := addr, wasLocal := true,
               sentBeforeReturn := [mkBatchCall (server client.args)],
               pendingAsync := [] }
      else
        some { gt := gt', addr := addr, wasLocal := false,
               sentBeforeReturn := [],
               pendingAsync := [mkBatchCall (netCall client)] }
    | none =>
      some { gt := gt', addr := addr, wasLocal := false,
             sentBeforeReturn := [],
             pendingAsync := [mkBatchCall (netCall client)] }

/-- The error cases of `grpcTransport.TryNext`, one constructor per
distinct error the Go function constructs. -/
inductive TryNextError where
  | transportExhausted
  | newLeaderNil
  | noClientForReplica (replica : ReplicaDescriptor)
deriving DecidableEq, Repr

/-- `grpcTransport.TryNext`: reprioritise the named replica. The Go
function mutates the receiver and returns an error; here the state is
returned alongside an optional error. In the branch that finds the
replica in `orderedClients`, the Go code builds a reordered local slice
`oc` but never assigns it back to `gt.orderedClients`, so the state is
returned unchanged there, with a nil error. -/
def GrpcTransport.TryNext (gt : GrpcTransport) (replica : ReplicaDescriptor) :
    GrpcTransport × Option TryNextError :=
  if gt.IsExhausted then (gt, some .transportExhausted)
  else if replica.replicaID = 0 then (gt, some .newLeaderNil)
  else if gt.orderedClients.any (fun c => c.args.replica == replica) then
    (gt, none)
  else
    match gt.allOrderedClients.find? (fun c => c.args.replica == replica) with
    | some c => ({ gt with orderedClients := c :: gt.orderedClients.dropLast }, none)
    | none => (gt, some (.noClientForReplica replica))

/-- Iterated `SendNext`: the session state after `k` completed sends,
or `none` when some send hit an exhausted session. -/
def sendSteps
    (enableLocalCalls : Bool)
    (localServer : String → Option (BatchRequest → Except String BatchResponse))
    (netCall : BatchClient → Except String BatchResponse)
    (gt : GrpcTransport) : Nat → Option GrpcTransport
  | 0 => some gt
  | k + 1 =>
    match gt.SendNext enableLocalCalls localServer netCall with
    | none => none
    | some r => sendSteps enableLocalCalls localServer netCall r.gt k

/-! ## Concrete fixtures for witnesses and counterexamples -/

/-- Replica identity with id 1. -/
def repA : ReplicaDescriptor := { nodeID := 1, storeID := 1, replicaID := 1 }

/-- Replica identity with id 2. -/
def repB : ReplicaDescriptor := { nodeID := 2, storeID := 2, replicaID := 2 }

/-- Replica identity with id 3. -/
def repC : ReplicaDescriptor := { nodeID := 3, storeID := 3, replicaID := 3 }

/-- The zero replica id sentinel. -/
def repZero : ReplicaDescriptor := { nodeID := 1, storeID := 1, replicaID := 0 }

/-- A replica identity outside every fixture candidate set. -/
def repUnknown : ReplicaDescriptor := { nodeID := 9, storeID := 9, replicaID := 9 }

/-- Candidate A. -/
def clientA : BatchClient :=
  { remoteAddr := "a", args := { replica := repA, payload := 0 }, healthy := true }

/-- Candidate B. -/
def clientB : BatchClient :=
  { remoteAddr := "b", args := { replica := repB, payload := 0 }, healthy := true }

/-- Candidate C. -/
def clientC : BatchClient :=
  { remoteAddr := "c", args := { replica := repC, payload := 0 }, healthy := true }

/-- A session with remaining [A, C, B] over the full set [A, B, C]. -/
def gtACB : GrpcTransport :=
  { orderedClients := [clientA, clientC, clientB],
    allOrderedClients := [clientA, clientB, clientC] }

/-- An exhausted session whose full set is [A, B, C]. -/
def gtExhausted : GrpcTransport :=
  { orderedClients := [], allOrderedClients := [clientA, clientB, clientC] }

/-- A session drained to remaining [C] over the full set [A, B, C]. -/
def gtDrained : GrpcTransport :=
  { orderedClients := [clientC], allOrderedClients := [clientA, clientB, clientC] }

/-- A network call capability that always succeeds, used by witnesses. -/
def netOk : BatchClient → Except String BatchResponse :=
  fun _ => .ok { error := none, payload := 0 }

/-- A local server lookup with no local handlers, used by witnesses. -/
def noLocal : String → Option (BatchRequest → Except String BatchResponse) :=
  fun _ => none

/-! ## The grpc transport factory -/

/-- The error cases of a grpc dial, as the factory distinguishes them:
the circuit breaker of the endpoint being open, or any other connection
error. -/
inductive DialError where
  | breakerOpen
  | other (msg : String)
deriving DecidableEq, Repr

/-- One entry of the `ReplicaSlice` handed to the factory: the node
address and the replica descriptor. -/
structure ReplicaInfo where
  address : String
  replica : ReplicaDescriptor
deriving DecidableEq, Repr

/-- The `batchClient` the factory builds for one replica: the request
template with this replica stamped in, and the health snapshot taken
from the connection at construction time. -/
def mkClient (healthy : String → Bool) (args : BatchRequest)
    (r : ReplicaInfo) : BatchClient :=
  { remoteAddr := r.address,
    args := { args with replica := r.replica },
    healthy := healthy r.address }

/-- The client-building loop of `grpcTransportFactory`: dial each
replica in order; a dial failing with the breaker open skips that
replica, any other dial error aborts the whole construction with that
error. -/
def buildClients (dial : String → Except DialError Unit)
    (healthy : String → Bool) (args : BatchRequest) :
    List ReplicaInfo → Except DialError (List BatchClient)
  | [] => .ok []
  | r :: rs =>
    match dial r.address with
    | .error .breakerOpen => buildClients dial healthy args rs
    | .error (.other msg) => .error (.other msg)
    | .ok _ =>
      (buildClients dial healthy args rs).map
        (fun cs => mkClient healthy args r :: cs)

/-- Whether the dial of this replica succeeds. -/
def dialOk (dial : String → Except DialError Unit) (r : ReplicaInfo) : Bool :=
  match dial r.address with
  | .ok _ => true
  | .error _ => false

/-- `grpcTransportFactory`: build the clients, stably partition them by
health, and return the session with both client views set to the
partitioned slice. The grpc dial and the connection health probe of the
rpc context are supplied as capabilities. -/
def grpcTransportFactory (dial : String → Except DialError Unit)
    (healthy : String → Bool) (replicas : List ReplicaInfo)
    (args : BatchRequest) : Except DialError GrpcTransport :=
  (buildClients dial healthy args replicas).map (fun clients =>
    let sorted := (splitHealthy clients).1
    { orderedClients := sorted, allOrderedClients := sorted })

/-! ## The sender transport (test double) -/

/-- The two panics `senderTransport.SendNext` can raise: calling an
exhausted transport, and a successful reply that already carries an
embedded terminal error (`roachpb.ErrorUnexpectedlySet`). -/
inductive SenderPanic where
  | exhaustedTransport
  | errorUnexpectedlySet
deriving DecidableEq, Repr

/-- The `senderTransport` state: the captured request and whether the
single send has already happened. -/
structure SenderTransport where
  args : BatchRequest
  called : Bool
deriving DecidableEq, Repr

/-- `senderTransport.IsExhausted`: true once the one send happened. -/
def SenderTransport.IsExhausted (s : SenderTransport) : Bool :=
  s.called

/-- `senderTransport.SendNext`: panics when already called; invokes the
wrapped sender, substitutes an empty response for a nil reply, panics
with `ErrorUnexpectedlySet` when the reply already carries an embedded
error, otherwise stores the sender error into the reply, pushes
`BatchCall\x7bReply: br\x7d` on the done channel and returns the empty
address. Panics are modelled as the error side of `Except`. -/
def SenderTransport.SendNext
    (send : BatchRequest → Option BatchResponse × Option String)
    (s : SenderTransport) :
    Except SenderPanic (SenderTransport × BatchCall × String) :=
  if s.called then .error .exhaustedTransport
  else
    let res := send s.args
    let br := res.1.getD { error := none, payload := 0 }
    if br.error.isSome then .error .errorUnexpectedlySet
    else
      .ok ({ s with called := true },
        { reply := some { br with error := res.2 }, err := none }, "")

/-- A fixed dial capability for witnesses: address a dials fine, b has
an open breaker, every other address fails hard. -/
def dialFix : String → Except DialError Unit :=
  fun a => if a = "a" then .ok () else
    if a = "b" then .error .breakerOpen else .error (.other "boom")

/-- A health probe for witnesses marking every address healthy. -/
def healthyFix : String → Bool := fun _ => true

/-- A request template for witnesses. -/
def reqFix : BatchRequest := { replica := repZero, payload := 7 }

/-- Replica slice entry for address a. -/
def riA : ReplicaInfo := { address := "a", replica := repA }

/-- Replica slice entry for address b. -/
def riB : ReplicaInfo := { address := "b", replica := repB }

/-- Replica slice entry for address c. -/
def riC : ReplicaInfo := { address := "c", replica := repC }

/-- A fresh sender transport fixture. -/
def senderFresh : SenderTransport :=
  { args := { replica := repA, payload := 0 }, called := false }

/-- A sender that double-reports: a successful call whose reply already
carries an embedded error. -/
def sendBad : BatchRequest → Option BatchResponse × Option String :=
  fun _ => (some { error := some "boom", payload := 0 }, none)

/-- A well-behaved sender: a reply with no embedded error. -/
def sendGood : BatchRequest → Option BatchResponse × Option String :=
  fun _ => (some { error := none, payload := 1 }, none)

deriving instance DecidableEq for Except

/-! ## Lemmas and claim theorems -/

lemma stableInsert_of_healthy (x : BatchClient) (hx : x.healthy = true)
    (l : List BatchClient) : stableInsert x l = x :: l := by
  cases l with
  | nil => rfl
  | cons y ys =>
    simp [stableInsert, byHealthLess, hx]

lemma stableInsert_all_healthy (x : BatchClient) (hx : x.healthy = false)
    (hs us : List BatchClient) (hh : ∀ y ∈ hs, y.healthy = true) :
    stableInsert x (hs ++ us) = hs ++ stableInsert x us := by
  induction hs with
  | nil => rfl
  | cons y ys ih =>
    have hy : y.healthy = true := hh y (by simp)
    simp only [List.cons_append, stableInsert, byHealthLess, hy, hx]
    simp [ih (fun z hz => hh z (by simp [hz]))]

lemma stableInsert_all_unhealthy (x : BatchClient)
    (us : List BatchClient) (hu : ∀ y ∈ us, y.healthy = false) :
    stableInsert x us = x :: us := by
  cases us with
  | nil => rfl
  | cons y ys =>
    have hy : y.healthy = false := hu y (by simp)
    simp [stableInsert, byHealthLess, hy]

/-- The key structural lemma: the stable sort under `byHealth` is
exactly the stable partition into healthy then unhealthy clients. -/
lemma sortStableByHealth_eq_partition (l : List BatchClient) :
    sortStableByHealth l =
      l.filter (fun c => c.healthy) ++ l.filter (fun c => !c.healthy) := by
  induction l with
  | nil => rfl
  | cons x xs ih =>
    simp only [sortStableByHealth, ih]
    by_cases hx : x.healthy = true
    · rw [stableInsert_of_healthy x hx]
      simp [List.filter, hx]
    · have hx' : x.healthy = false := by
        cases hhx : x.healthy
        · rfl
        · exact absurd hhx hx
      rw [stableInsert_all_healthy x hx' _ _
        (fun y hy => (List.mem_filter.mp hy).2)]
      rw [stableInsert_all_unhealthy x _
        (fun y hy => by
          have := (List.mem_filter.mp hy).2
          simpa using this)]
      simp [List.filter, hx']

/-- C3: for every candidate list, `splitHealthy` produces a stable
partition: the healthy candidates first in their original relative
order, then the unhealthy candidates in their original relative order;
the returned count is the number of healthy candidates, and the empty
list yields the empty list with count zero. -/
theorem splitHealthy_stable_partition (clients : List BatchClient) :
    (splitHealthy clients).1 =
      clients.filter (fun c => c.healthy) ++ clients.filter (fun c => !c.healthy) ∧
    (splitHealthy clients).2 = (clients.filter (fun c => c.healthy)).length ∧
    splitHealthy [] = ([], 0) := by
  refine ⟨?_, ?_, rfl⟩
  · simpa [splitHealthy] using sortStableByHealth_eq_partition clients
  · simp only [splitHealthy, sortStableByHealth_eq_partition]
    rw [List.countP_eq_length_filter, List.filter_append]
    have h2 : (clients.filter (fun c => !c.healthy)).filter (fun c => c.healthy) = [] := by
      rw [List.filter_filter]
      apply List.filter_eq_nil_iff.mpr
      intro a _
      simp [Bool.and_comm]
    simp [List.filter_filter, h2]

lemma mkBatchCall_reply_or_err (x : Except String BatchResponse) :
    (mkBatchCall x).reply.isSome = true ∨ (mkBatchCall x).err.isSome = true := by
  cases x <;> simp [mkBatchCall]

/-- One `SendNext` step on a non-empty remaining list: the head is
popped, its address returned, and exactly one outcome is produced on
one of the two paths. -/
lemma sendNext_cases (e : Bool)
    (ls : String → Option (BatchRequest → Except String BatchResponse))
    (nc : BatchClient → Except String BatchResponse)
    (gt : GrpcTransport) (c : BatchClient) (rest : List BatchClient)
    (hoc : gt.orderedClients = c :: rest) :
    ∃ r, gt.SendNext e ls nc = some r ∧
      r.gt = { gt with orderedClients := rest } ∧
      r.addr = c.remoteAddr ∧
      ((r.wasLocal = true ∧ e = true ∧
        (∃ server, ls c.remoteAddr = some server ∧
          r.sentBeforeReturn = [mkBatchCall (server c.args)]) ∧
        r.pendingAsync = []) ∨
       (r.wasLocal = false ∧ r.sentBeforeReturn = [] ∧
        r.pendingAsync = [mkBatchCall (nc c)])) := by
  cases hls : ls c.remoteAddr with
  | none =>
    refine ⟨⟨{ gt with orderedClients := rest }, c.remoteAddr, false, [],
      [mkBatchCall (nc c)]⟩, ?_, rfl, rfl, ?_⟩
    · simp [GrpcTransport.SendNext, hoc, hls]
    · right; exact ⟨rfl, rfl, rfl⟩
  | some server =>
    cases e with
    | true =>
      refine ⟨⟨{ gt with orderedClients := rest }, c.remoteAddr, true,
        [mkBatchCall (server c.args)], []⟩, ?_, rfl, rfl, ?_⟩
      · simp [GrpcTransport.SendNext, hoc, hls]
      · left; exact ⟨rfl, rfl, ⟨server, rfl, rfl⟩, rfl⟩
    | false =>
      refine ⟨⟨{ gt with orderedClients := rest }, c.remoteAddr, false, [],
        [mkBatchCall (nc c)]⟩, ?_, rfl, rfl, ?_⟩
      · simp [GrpcTransport.SendNext, hoc, hls]
      · right; exact ⟨rfl, rfl, rfl⟩

/-- C5: on every non-exhausted session, `SendNext` pops exactly the head
of remaining (the tail survives in order, the full set is untouched) and
returns the network address of that head candidate, whichever of the two
paths is taken. -/
theorem sendNext_pops_head_returns_addr (e : Bool)
    (ls : String → Option (BatchRequest → Except String BatchResponse))
    (nc : BatchClient → Except String BatchResponse)
    (gt : GrpcTransport) (c : BatchClient) (rest : List BatchClient)
    (hoc : gt.orderedClients = c :: rest) :
    ∃ r, gt.SendNext e ls nc = some r ∧
      r.addr = c.remoteAddr ∧
      r.gt.orderedClients = rest ∧
      r.gt.allOrderedClients = gt.allOrderedClients := by
  obtain ⟨r, hr, hgt, haddr, _⟩ := sendNext_cases e ls nc gt c rest hoc
  exact ⟨r, hr, haddr, by rw [hgt], by rw [hgt]⟩

/-- C5 witness at a concrete session. -/
theorem sendNext_pops_head_returns_addr_witness :
    ∃ r, GrpcTransport.SendNext false noLocal netOk gtACB = some r ∧
      r.addr = clientA.remoteAddr ∧
      r.gt.orderedClients = [clientC, clientB] ∧
      r.gt.allOrderedClients = gtACB.allOrderedClients :=
  sendNext_pops_head_returns_addr false noLocal netOk gtACB clientA
    [clientC, clientB] rfl

/-- C6: on every non-exhausted session, one `SendNext` call delivers
exactly one Outcome, which carries a reply or an error; on the local
short-circuit path it is delivered before `SendNext` returns and nothing
is left pending. -/
theorem sendNext_exactly_one_outcome (e : Bool)
    (ls : String → Option (BatchRequest → Except String BatchResponse))
    (nc : BatchClient → Except String BatchResponse)
    (gt : GrpcTransport) (hne : gt.IsExhausted = false) :
    ∃ r, gt.SendNext e ls nc = some r ∧
      (r.sentBeforeReturn ++ r.pendingAsync).length = 1 ∧
      (∀ bc ∈ r.sentBeforeReturn ++ r.pendingAsync,
        bc.reply.isSome = true ∨ bc.err.isSome = true) ∧
      (r.wasLocal = true → r.sentBeforeReturn.length = 1 ∧ r.pendingAsync = []) := by
  cases hoc : gt.orderedClients with
  | nil => rw [GrpcTransport.IsExhausted, hoc] at hne; simp at hne
  | cons c rest =>
    obtain ⟨r, hr, _, _, hpath⟩ := sendNext_cases e ls nc gt c rest hoc
    refine ⟨r, hr, ?_, ?_, ?_⟩
    · rcases hpath with ⟨_, _, ⟨server, _, hsent⟩, hpend⟩ | ⟨_, hsent, hpend⟩ <;>
        simp [hsent, hpend]
    · intro bc hbc
      rcases hpath with ⟨_, _, ⟨server, _, hsent⟩, hpend⟩ | ⟨_, hsent, hpend⟩ <;>
        rw [hsent, hpend] at hbc <;> simp at hbc <;> rw [hbc] <;>
        apply mkBatchCall_reply_or_err
    · intro hl
      rcases hpath with ⟨_, _, ⟨server, _, hsent⟩, hpend⟩ | ⟨hnl, _, _⟩
      · exact ⟨by simp [hsent], hpend⟩
      · rw [hnl] at hl; exact absurd hl (by simp)

/-- C6 witness at a concrete session. -/
theorem sendNext_exactly_one_outcome_witness :
    ∃ r, GrpcTransport.SendNext false noLocal netOk gtACB = some r ∧
      (r.sentBeforeReturn ++ r.pendingAsync).length = 1 ∧
      (∀ bc ∈ r.sentBeforeReturn ++ r.pendingAsync,
        bc.reply.isSome = true ∨ bc.err.isSome = true) ∧
      (r.wasLocal = true → r.sentBeforeReturn.length = 1 ∧ r.pendingAsync = []) :=
  sendNext_exactly_one_outcome false noLocal netOk gtACB (by decide)

/-- Iterated sends on a session: after `k` completed sends the remaining
list is the original with its first `k` entries dropped. -/
lemma sendSteps_drop (e : Bool)
    (ls : String → Option (BatchRequest → Except String BatchResponse))
    (nc : BatchClient → Except String BatchResponse) :
    ∀ (k : Nat) (gt : GrpcTransport), k ≤ gt.orderedClients.length →
    ∃ gt2, sendSteps e ls nc gt k = some gt2 ∧
      gt2.orderedClients = gt.orderedClients.drop k ∧
      gt2.allOrderedClients = gt.allOrderedClients := by
  intro k
  induction k with
  | zero => intro gt _; exact ⟨gt, rfl, rfl, rfl⟩
  | succ k ih =>
    intro gt hk
    cases hoc : gt.orderedClients with
    | nil => rw [hoc] at hk; simp at hk
    | cons c rest =>
      obtain ⟨r, hr, hrgt, _, _⟩ := sendNext_cases e ls nc gt c rest hoc
      have hlen : k ≤ r.gt.orderedClients.length := by
        rw [hrgt]
        rw [hoc] at hk
        simpa using Nat.lt_succ_iff.mp (Nat.lt_of_succ_le (by simpa using hk))
      obtain ⟨gt2, hs2, hd2, ha2⟩ := ih r.gt hlen
      refine ⟨gt2, ?_, ?_, ?_⟩
      · simp [sendSteps, hr, hs2]
      · rw [hd2, hrgt]; simp
      · rw [ha2, hrgt]

/-- C4: on a fresh session that never sees `TryNext`, after any number
`k` of completed `SendNext` calls (`k` at most the candidate count),
`IsExhausted` is true exactly when `k` equals the size of the original
candidate set. `IsExhausted` is a function of the state and mutates
nothing. -/
theorem isExhausted_iff_sends_eq_candidates (e : Bool)
    (ls : String → Option (BatchRequest → Except String BatchResponse))
    (nc : BatchClient → Except String BatchResponse)
    (cs : List BatchClient) (k : Nat) (hk : k ≤ cs.length) :
    ∃ gt2, sendSteps e ls nc
        { orderedClients := cs, allOrderedClients := cs } k = some gt2 ∧
      (gt2.IsExhausted = true ↔ k = cs.length) := by
  obtain ⟨gt2, hs, hd, _⟩ :=
    sendSteps_drop e ls nc k { orderedClients := cs, allOrderedClients := cs }
      (by simpa using hk)
  refine ⟨gt2, hs, ?_⟩
  rw [GrpcTransport.IsExhausted, hd]
  simp only [List.isEmpty_iff]
  constructor
  · intro hnil
    have hle : cs.length ≤ k := by
      have := List.drop_eq_nil_iff.mp (by simpa using hnil)
      simpa using this
    omega
  · intro hkk
    subst hkk
    simp [List.drop_length]

/-- C4 witness: two candidates, one completed send, not exhausted. -/
theorem isExhausted_iff_sends_eq_candidates_witness :
    ∃ gt2, sendSteps false noLocal netOk
        { orderedClients := [clientA, clientB],
          allOrderedClients := [clientA, clientB] } 1 = some gt2 ∧
      (gt2.IsExhausted = true ↔ 1 = [clientA, clientB].length) :=
  isExhausted_iff_sends_eq_candidates false noLocal netOk
    [clientA, clientB] 1 (by decide)

/-- C1 evaluation at the failing input: on the session with remaining
[A, C, B], `TryNext` naming B (which is in remaining) returns success,
yet the remaining list is left as [A, C, B], not reordered to
[B, A, C]: the Go branch builds the reordered slice `oc` but never
assigns it back to `gt.orderedClients`. -/
theorem tryNext_in_remaining_is_noop :
    gtACB.TryNext repB = (gtACB, none) ∧
    (gtACB.TryNext repB).1.orderedClients = [clientA, clientC, clientB] ∧
    ¬ (gtACB.TryNext repB).1.orderedClients = [clientB, clientA, clientC] := by
  refine ⟨by decide, by decide, by decide⟩

/-- C10: on every exhausted session (remaining empty), `TryNext` fails
with the exhaustion error and returns the state unchanged, whatever
replica identity is passed. -/
theorem tryNext_exhausted_always_fails (gt : GrpcTransport)
    (replica : ReplicaDescriptor) (h : gt.IsExhausted = true) :
    gt.TryNext replica = (gt, some TryNextError.transportExhausted) := by
  unfold GrpcTransport.TryNext
  rw [h]
  simp

/-- C10 witness: the exhausted fixture session refuses even replica A,
a valid member of its full candidate set. -/
theorem tryNext_exhausted_always_fails_witness :
    gtExhausted.TryNext repA =
      (gtExhausted, some TryNextError.transportExhausted) :=
  tryNext_exhausted_always_fails gtExhausted repA (by decide)

/-- C2: on every session with non-empty remaining, `TryNext` naming a
nonzero replica absent from remaining but present in the full set
succeeds, and the new remaining list is the found candidate consed onto
the old remaining with its last entry dropped; its length is unchanged
and its head is the named candidate. -/
theorem tryNext_reinsert_evicts_last (gt : GrpcTransport)
    (replica : ReplicaDescriptor)
    (hne : gt.orderedClients ≠ [])
    (hid : replica.replicaID ≠ 0)
    (habs : ∀ c ∈ gt.orderedClients, c.args.replica ≠ replica)
    (hmem : ∃ c ∈ gt.allOrderedClients, c.args.replica = replica) :
    ∃ c, gt.allOrderedClients.find? (fun x => x.args.replica == replica) = some c ∧
      c.args.replica = replica ∧
      gt.TryNext replica =
        ({ gt with orderedClients := c :: gt.orderedClients.dropLast }, none) ∧
      (c :: gt.orderedClients.dropLast).length = gt.orderedClients.length := by
  have hfind : (gt.allOrderedClients.find?
      (fun x => x.args.replica == replica)).isSome = true := by
    rw [List.find?_isSome]
    obtain ⟨c, hc, hcr⟩ := hmem
    exact ⟨c, hc, by simp [hcr]⟩
  obtain ⟨c, hc⟩ := Option.isSome_iff_exists.mp hfind
  have hcr : c.args.replica = replica := by
    have := List.find?_some hc
    simpa using this
  have hanyf : gt.orderedClients.any (fun x => x.args.replica == replica) = false := by
    rw [List.any_eq_false]
    intro x hx
    simpa using habs x hx
  have hnex : gt.IsExhausted = false := by
    rw [GrpcTransport.IsExhausted]
    simpa using hne
  refine ⟨c, hc, hcr, ?_, ?_⟩
  · unfold GrpcTransport.TryNext
    rw [hnex, hanyf, hc]
    simp [hid]
  · have hpos : 0 < gt.orderedClients.length := List.length_pos.mpr hne
    simp [List.length_dropLast]
    omega

/-- C2 witness: the drained session (remaining [C], full set
[A, B, C]) accepts `TryNext` naming A; A is reinserted at the front and
the last remaining entry C is evicted, keeping the size at one. -/
theorem tryNext_reinsert_evicts_last_witness :
    ∃ c, gtDrained.allOrderedClients.find?
        (fun x => x.args.replica == repA) = some c ∧
      c.args.replica = repA ∧
      gtDrained.TryNext repA =
        ({ gtDrained with
            orderedClients := c :: gtDrained.orderedClients.dropLast }, none) ∧
      (c :: gtDrained.orderedClients.dropLast).length =
        gtDrained.orderedClients.length :=
  tryNext_reinsert_evicts_last gtDrained repA (by decide) (by decide)
    (by decide) (by decide)

/-- C7 counterexample: on an exhausted session, `TryNext` with the zero
replica id and `TryNext` with an identity unknown to the session return
the same exhaustion error, so the two failure causes are not
distinguishable in the returned error there (though both calls do fail
and leave the state unchanged). -/
theorem tryNext_failures_same_error_when_exhausted :
    (gtExhausted.TryNext repZero).2 = some TryNextError.transportExhausted ∧
    (gtExhausted.TryNext repUnknown).2 = some TryNextError.transportExhausted ∧
    (gtExhausted.TryNext repZero).2 = (gtExhausted.TryNext repUnknown).2 ∧
    (gtExhausted.TryNext repZero).1 = gtExhausted ∧
    (gtExhausted.TryNext repUnknown).1 = gtExhausted := by
  refine ⟨by decide, by decide, by decide, by decide, by decide⟩

/-- C7 as amended: `TryNext` with a zero replica id, or with a nonzero
identity in neither remaining nor the full set, always fails and leaves
the state (hence the remaining list, in identity and order) unchanged;
on a non-exhausted session the two causes yield the two distinct errors
(invalid identity versus no client for the replica), while on an
exhausted session both yield the exhaustion error. -/
theorem tryNext_failure_atomicity (gt : GrpcTransport)
    (replica : ReplicaDescriptor) :
    (replica.replicaID = 0 →
      (gt.TryNext replica).1 = gt ∧ (gt.TryNext replica).2.isSome = true) ∧
    (replica.replicaID ≠ 0 →
      (∀ c ∈ gt.orderedClients, c.args.replica ≠ replica) →
      (∀ c ∈ gt.allOrderedClients, c.args.replica ≠ replica) →
      (gt.TryNext replica).1 = gt ∧ (gt.TryNext replica).2.isSome = true) ∧
    (gt.IsExhausted = false → replica.replicaID = 0 →
      (gt.TryNext replica).2 = some TryNextError.newLeaderNil) ∧
    (gt.IsExhausted = false → replica.replicaID ≠ 0 →
      (∀ c ∈ gt.orderedClients, c.args.replica ≠ replica) →
      (∀ c ∈ gt.allOrderedClients, c.args.replica ≠ replica) →
      (gt.TryNext replica).2 =
        some (TryNextError.noClientForReplica replica)) ∧
    TryNextError.newLeaderNil ≠ TryNextError.noClientForReplica replica := by
  have hnofind : (∀ c ∈ gt.allOrderedClients, c.args.replica ≠ replica) →
      gt.allOrderedClients.find? (fun x => x.args.replica == replica) = none := by
    intro hall
    rw [List.find?_eq_none]
    intro x hx
    simpa using hall x hx
  have hnoany : (∀ c ∈ gt.orderedClients, c.args.replica ≠ replica) →
      gt.orderedClients.any (fun x => x.args.replica == replica) = false := by
    intro hrem
    rw [List.any_eq_false]
    intro x hx
    simpa using hrem x hx
  refine ⟨?_, ?_, ?_, ?_, by simp⟩
  · intro h0
    unfold GrpcTransport.TryNext
    cases hex : gt.IsExhausted <;> simp [h0]
  · intro hid hrem hall
    unfold GrpcTransport.TryNext
    cases hex : gt.IsExhausted
    · simp [hid, hnoany hrem, hnofind hall]
    · simp
  · intro hex h0
    unfold GrpcTransport.TryNext
    rw [hex]
    simp [h0]
  · intro hex hid hrem hall
    unfold GrpcTransport.TryNext
    rw [hex]
    simp [hid, hnoany hrem, hnofind hall]

/-- C7 witness on a non-exhausted session: the zero id and an unknown
identity both fail without touching the state, with the two distinct
errors. -/
theorem tryNext_failure_atomicity_witness :
    ((gtACB.TryNext repZero).1 = gtACB ∧
      (gtACB.TryNext repZero).2.isSome = true) ∧
    ((gtACB.TryNext repUnknown).1 = gtACB ∧
      (gtACB.TryNext repUnknown).2.isSome = true) ∧
    (gtACB.TryNext repZero).2 = some TryNextError.newLeaderNil ∧
    (gtACB.TryNext repUnknown).2 =
      some (TryNextError.noClientForReplica repUnknown) :=
  ⟨(tryNext_failure_atomicity gtACB repZero).1 (by decide),
   (tryNext_failure_atomicity gtACB repUnknown).2.1 (by decide) (by decide)
     (by decide),
   (tryNext_failure_atomicity gtACB repZero).2.2.1 (by decide) (by decide),
   (tryNext_failure_atomicity gtACB repUnknown).2.2.2.1 (by decide) (by decide)
     (by decide) (by decide)⟩

lemma buildClients_ok (dial : String → Except DialError Unit)
    (healthy : String → Bool) (args : BatchRequest) :
    ∀ rs : List ReplicaInfo,
    (∀ r ∈ rs, dial r.address = .ok () ∨ dial r.address = .error .breakerOpen) →
    buildClients dial healthy args rs =
      .ok ((rs.filter (dialOk dial)).map (mkClient healthy args)) := by
  intro rs
  induction rs with
  | nil => intro _; rfl
  | cons r rs ih =>
    intro h
    have hr := h r (by simp)
    have htl := ih (fun x hx => h x (by simp [hx]))
    rcases hr with hok | hbo
    · simp [buildClients, hok, htl, List.filter, dialOk, Except.map]
    · simp [buildClients, hbo, htl, List.filter, dialOk, Except.map]

lemma buildClients_abort (dial : String → Except DialError Unit)
    (healthy : String → Bool) (args : BatchRequest) :
    ∀ (pre : List ReplicaInfo) (r : ReplicaInfo) (post : List ReplicaInfo)
      (msg : String),
    (∀ p ∈ pre, dial p.address = .ok () ∨ dial p.address = .error .breakerOpen) →
    dial r.address = .error (.other msg) →
    buildClients dial healthy args (pre ++ r :: post) = .error (.other msg) := by
  intro pre
  induction pre with
  | nil =>
    intro r post msg _ hr
    simp [buildClients, hr]
  | cons p ps ih =>
    intro r post msg hpre hr
    have hp := hpre p (by simp)
    have htl := ih r post msg (fun x hx => hpre x (by simp [hx])) hr
    rcases hp with hok | hbo
    · simp [buildClients, hok, htl, Except.map]
    · simp [buildClients, hbo, htl]

/-- C8: in the transport factory, a candidate whose dial fails with the
circuit breaker open is silently skipped, so when no candidate fails
hard the session is built from exactly the successfully dialed
candidates in order (then health-partitioned); while the first
candidate whose dial fails with any other error aborts the factory,
which returns that error and no session. -/
theorem grpcTransportFactory_skip_or_abort
    (dial : String → Except DialError Unit) (healthy : String → Bool)
    (args : BatchRequest) (replicas : List ReplicaInfo) :
    ((∀ r ∈ replicas,
        dial r.address = .ok () ∨ dial r.address = .error .breakerOpen) →
      grpcTransportFactory dial healthy replicas args =
        .ok { orderedClients := (splitHealthy ((replicas.filter
                (dialOk dial)).map (mkClient healthy args))).1,
              allOrderedClients := (splitHealthy ((replicas.filter
                (dialOk dial)).map (mkClient healthy args))).1 }) ∧
    (∀ (pre : List ReplicaInfo) (r : ReplicaInfo) (post : List ReplicaInfo)
        (msg : String),
      replicas = pre ++ r :: post →
      (∀ p ∈ pre, dial p.address = .ok () ∨ dial p.address = .error .breakerOpen) →
      dial r.address = .error (.other msg) →
      grpcTransportFactory dial healthy replicas args = .error (.other msg)) := by
  constructor
  · intro h
    rw [grpcTransportFactory, buildClients_ok dial healthy args replicas h]
    rfl
  · intro pre r post msg hsplit hpre hr
    rw [grpcTransportFactory, hsplit,
      buildClients_abort dial healthy args pre r post msg hpre hr]
    rfl

/-- C8 witness: with address a dialing fine, b behind an open breaker
and c failing hard, the factory on [a, b] builds a session from a alone,
and on [a, b, c] aborts with the hard error. -/
theorem grpcTransportFactory_skip_or_abort_witness :
    grpcTransportFactory dialFix healthyFix [riA, riB] reqFix =
      .ok { orderedClients := (splitHealthy (([riA, riB].filter
              (dialOk dialFix)).map (mkClient healthyFix reqFix))).1,
            allOrderedClients := (splitHealthy (([riA, riB].filter
              (dialOk dialFix)).map (mkClient healthyFix reqFix))).1 } ∧
    grpcTransportFactory dialFix healthyFix [riA, riB, riC] reqFix =
      .error (.other "boom") :=
  ⟨(grpcTransportFactory_skip_or_abort dialFix healthyFix reqFix
      [riA, riB]).1 (by decide),
   (grpcTransportFactory_skip_or_abort dialFix healthyFix reqFix
      [riA, riB, riC]).2 [riA, riB] riC [] "boom" rfl (by decide) (by decide)⟩

/-- C9: on the sender-backed test transport, a call whose sender reports
success yet hands back a reply already carrying an embedded terminal
error panics with `ErrorUnexpectedlySet` instead of delivering an
outcome; and for a sender that never sets the embedded error of its
replies, that panic is unreachable, a fresh transport delivering one
successful outcome instead. -/
theorem senderTransport_embedded_error_is_fatal
    (send : BatchRequest → Option BatchResponse × Option String)
    (s : SenderTransport) :
    (∀ br e, s.called = false → (send s.args).1 = some br →
      (send s.args).2 = none → br.error = some e →
      SenderTransport.SendNext send s =
        .error SenderPanic.errorUnexpectedlySet) ∧
    ((∀ br, (send s.args).1 = some br → br.error = none) →
      SenderTransport.SendNext send s ≠
        .error SenderPanic.errorUnexpectedlySet) ∧
    ((∀ br, (send s.args).1 = some br → br.error = none) → s.called = false →
      ∃ s2 bc, SenderTransport.SendNext send s = .ok (s2, bc, "") ∧
        bc.reply.isSome = true ∧ bc.err = none) := by
  refine ⟨?_, ?_, ?_⟩
  · intro br e hcalled hbr _ herr
    rw [SenderTransport.SendNext]
    simp only [hcalled, if_false, Bool.false_eq_true]
    simp [hbr, herr]
  · intro hgood
    rw [SenderTransport.SendNext]
    cases hcalled : s.called with
    | true => simp
    | false =>
      cases hbr : (send s.args).1 with
      | none => simp [hbr]
      | some br =>
        have := hgood br hbr
        simp [hbr, this]
  · intro hgood hcalled
    rw [SenderTransport.SendNext]
    simp only [hcalled, if_false, Bool.false_eq_true]
    cases hbr : (send s.args).1 with
    | none =>
      simp [hbr]
      exact ⟨_, _, ⟨rfl, rfl⟩, rfl, rfl⟩
    | some br =>
      have := hgood br hbr
      simp [hbr, this]
      exact ⟨_, _, ⟨rfl, rfl⟩, rfl, rfl⟩

/-- C9 witness: the double-reporting sender makes the fresh transport
panic with `ErrorUnexpectedlySet`; the well-behaved sender makes it
deliver one successful outcome. -/
theorem senderTransport_embedded_error_is_fatal_witness :
    SenderTransport.SendNext sendBad senderFresh =
      .error SenderPanic.errorUnexpectedlySet ∧
    (∃ s2 bc, SenderTransport.SendNext sendGood senderFresh = .ok (s2, bc, "") ∧
      bc.reply.isSome = true ∧ bc.err = none) :=
  ⟨(senderTransport_embedded_error_is_fatal sendBad senderFresh).1
      { error := some "boom", payload := 0 } "boom" rfl rfl rfl rfl,
   (senderTransport_embedded_error_is_fatal sendGood senderFresh).2.2
      (fun br hbr => by
        simp [sendGood] at hbr
        simp [← hbr])
      rfl⟩
